import Mathlib

/-!
Shallow embedding of the `snippet-segment-types` crate (src/src/lib.rs).
The crate implements the concrete node kinds (`Placeholder`, `Choice`,
`Variable`, `Code`) of the `snippet_body` trait hierarchy.  Types and
operations declared in the external `snippet_body` crate (`Segment`,
`Reference`, `Tab`, `Snippet`, the cast helpers and `trim_empty_tabs`)
are not in this repository; where a claim depends on them they are
modelled from the spec, as marked in the doc comments.
-/

namespace SnippetSegmentTypes

/-- Result of `std::env::var` as seen by `get_variable_value`:
either a valid Unicode value, or one of the two error cases of
`std::env::VarError` (not present, or present but not valid Unicode). -/
inductive VarResult where
| ok (value : String)
| notPresent
| notUnicode
deriving DecidableEq, Repr

/-- `Variable` struct (src/src/lib.rs lines 74-81): a name, a cached value,
and an optional client resolution callback.  The Rust callback is a raw
`*mut dyn FnMut(&str) -> String`; it is modelled as a pure function
`String → String`. -/
structure Variable where
  name : String
  value : String
  get_from_client : Option (String → String)

/-- `Code` struct (src/src/lib.rs lines 116-119): a command string and the
cached output of its last run. -/
structure Code where
  code_to_run : String
  output : String
deriving DecidableEq, Repr

/-- Modelled from the spec: `Reference` is declared in the external
`snippet_body` crate.  Per the spec it is "a small value type (e.g. label +
fallback text)" compared by structural equality; the tests construct it as
`Reference::Text(String, String)`. -/
inductive Reference where
| Text (label : String) (text : String)
deriving DecidableEq, Repr

mutual

/-- Modelled from the spec: `Segment` is declared in the external
`snippet_body` crate.  Tagged union of literal text, a shared interactive
node, or a shared mirror reference.  Shared `Rc<RefCell<...>>` handles are
modelled as plain values, with sharing expressed as value equality. -/
inductive Segment where
| Text (s : String)
| Interactive (o : InteractiveObj)
| Reference (r : Reference)

/-- A `dyn InteractiveSegment` trait object.  The dynamic type is one of the
four concrete node kinds implemented in src/src/lib.rs. -/
inductive InteractiveObj where
| ofPlaceholder (p : Placeholder)
| ofChoice (c : Choice)
| ofVariable (v : Variable)
| ofCode (c : Code)

/-- `Placeholder` struct (src/src/lib.rs lines 11-15): an ordered sequence
of child segments. -/
inductive Placeholder where
| mk (segs : List Segment)

/-- `Choice` struct (src/src/lib.rs lines 37-42): the index of the chosen
choice, plus the list of choices (each a list of segments). -/
inductive Choice where
| mk (choice : Nat) (choices : List (List Segment))

end

/-- Modelled from the spec: rendering of a `Reference` (in `snippet_body`)
"renders the mirrored value"; we take the text field as that value.  No
claim depends on this choice. -/
def renderReference : Reference → String
| .Text _ text => text

mutual

/-- Modelled from the spec: `Display` for `Segment` (in `snippet_body`)
dispatches on variant: Text renders itself; Interactive delegates to the
held node; Reference renders the mirrored value. -/
def renderSegment : Segment → String
| .Text s => s
| .Interactive o => renderObj o
| .Reference r => renderReference r

/-- Rendering a `dyn InteractiveSegment`: virtual dispatch to the concrete
kind's `Display` impl.  `Variable` renders its cached `value`
(src/src/lib.rs lines 89-93) and `Code` its cached `output`
(src/src/lib.rs lines 120-124). -/
def renderObj : InteractiveObj → String
| .ofPlaceholder p => renderPlaceholder p
| .ofChoice c => renderChoice c
| .ofVariable v => v.value
| .ofCode c => c.output

/-- `impl fmt::Display for Placeholder` (src/src/lib.rs lines 16-24):
writes each child segment in order. -/
def renderPlaceholder : Placeholder → String
| .mk segs => renderSegs segs

/-- `impl fmt::Display for Choice` (src/src/lib.rs lines 43-56): looks up
`choices.get(choice)`; if absent returns at once (writing nothing),
otherwise writes each segment of the selected choice in order. -/
def renderChoice : Choice → String
| .mk choice choices => renderAlts choice choices

/-- Helper realising `choices.get(choice)` followed by the rendering loop:
index 0 at a cons renders that alternative, otherwise recurse; an
exhausted list (index out of range) renders nothing. -/
def renderAlts : Nat → List (List Segment) → String
| _, [] => ""
| 0, alt :: _ => renderSegs alt
| n+1, _ :: rest => renderAlts n rest

/-- The `for seg in segs { seg.fmt(f)?; }` loop: concatenates the
renderings of the segments in order. -/
def renderSegs : List Segment → String
| [] => ""
| seg :: rest => renderSegment seg ++ renderSegs rest

end

/-- `get_variable_value` (src/src/lib.rs lines 82-88): look the name up in
the process environment (modelled as an explicit `env` map); any `Err`
from `std::env::var` — not present, or not valid Unicode — yields the
empty string. -/
def get_variable_value (env : String → VarResult) (name : String) : String :=
  match env name with
  | .ok value => value
  | .notPresent => ""
  | .notUnicode => ""

/-- `impl Programic for Variable`, `evaluate` (src/src/lib.rs lines
100-108): if a client callback is attached call it with the name,
otherwise read the environment; store the result as the new `value`. -/
def Variable.evaluate (env : String → VarResult) (v : Variable) : Variable :=
  { v with value :=
      match v.get_from_client with
      | some get_from_client_function => get_from_client_function v.name
      | none => get_variable_value env v.name }

/-- `impl Programic for Code`, `evaluate` (src/src/lib.rs lines 131-136):
run the command through `run_script::run` (modelled as an explicit `run`
map from command to optional (exit code, stdout, stderr)) and `.unwrap()`
the result — a failed run panics, modelled as `none`; on success the
captured output is stored. -/
def Code.evaluate (run : String → Option (Int × String × String)) (c : Code) : Option Code :=
  match run c.code_to_run with
  | some (_, output, _) => some { c with output := output }
  | none => none

/-- Modelled from the spec: `impl PartialEq<Segment> for Reference` lives in
`snippet_body`.  Equality between a `Reference` value and a `Segment` holds
iff the Segment is the Reference variant and its payload equals the compared
Reference field-by-field; Text and Interactive variants are never equal. -/
def Reference.eqSegment (r : Reference) : Segment → Bool
| .Reference r2 => r == r2
| _ => false

/-- The concrete types implementing `InteractiveSegment`: the possible
targets `T` of `cast_interactive_segment::<T>`. -/
inductive InteractiveTy where
| placeholderT
| choiceT
| variableT
| codeT
deriving DecidableEq, Repr

/-- The Lean type a target tag stands for. -/
def InteractiveTy.interp : InteractiveTy → Type
| .placeholderT => Placeholder
| .choiceT => Choice
| .variableT => Variable
| .codeT => Code

/-- Dynamic type of a `dyn InteractiveSegment` trait object. -/
def InteractiveObj.tyOf : InteractiveObj → InteractiveTy
| .ofPlaceholder _ => .placeholderT
| .ofChoice _ => .choiceT
| .ofVariable _ => .variableT
| .ofCode _ => .codeT

/-- Modelled from the spec: `cast_interactive_segment::<T>` (in
`snippet_body`) returns the reference re-typed as `T` only if the trait
object's dynamic type is exactly `T`, otherwise an absent result. -/
def cast_interactive_segment : (T : InteractiveTy) → InteractiveObj → Option T.interp
| .placeholderT, .ofPlaceholder p => some p
| .choiceT, .ofChoice c => some c
| .variableT, .ofVariable v => some v
| .codeT, .ofCode c => some c
| .placeholderT, _ => none
| .choiceT, _ => none
| .variableT, _ => none
| .codeT, _ => none

/-- A `dyn Field` trait object: only `Placeholder` and `Choice` implement
`Field` (src/src/lib.rs lines 33-34 and 70-71). -/
inductive FieldObj where
| ofPlaceholder (p : Placeholder)
| ofChoice (c : Choice)

/-- The concrete types implementing `Field`: possible targets of
`cast_field::<T>`. -/
inductive FieldTy where
| placeholderT
| choiceT
deriving DecidableEq, Repr

/-- The Lean type a `Field` target tag stands for. -/
def FieldTy.interp : FieldTy → Type
| .placeholderT => Placeholder
| .choiceT => Choice

/-- Dynamic type of a `dyn Field` trait object. -/
def FieldObj.tyOf : FieldObj → FieldTy
| .ofPlaceholder _ => .placeholderT
| .ofChoice _ => .choiceT

/-- Modelled from the spec: `cast_field::<T>` (in `snippet_body`) returns
the reference re-typed as `T` only on an exact dynamic-type match,
otherwise an absent result. -/
def cast_field : (T : FieldTy) → FieldObj → Option T.interp
| .placeholderT, .ofPlaceholder p => some p
| .choiceT, .ofChoice c => some c
| .placeholderT, _ => none
| .choiceT, _ => none

/-- A `dyn Programic` trait object: only `Variable` and `Code` implement
`Programic` (src/src/lib.rs lines 99 and 130). -/
inductive ProgramicObj where
| ofVariable (v : Variable)
| ofCode (c : Code)

/-- The concrete types implementing `Programic`: possible targets of
`cast_mut_programic::<T>`. -/
inductive ProgramicTy where
| variableT
| codeT
deriving DecidableEq, Repr

/-- The Lean type a `Programic` target tag stands for. -/
def ProgramicTy.interp : ProgramicTy → Type
| .variableT => Variable
| .codeT => Code

/-- Dynamic type of a `dyn Programic` trait object. -/
def ProgramicObj.tyOf : ProgramicObj → ProgramicTy
| .ofVariable _ => .variableT
| .ofCode _ => .codeT

/-- Modelled from the spec: `cast_mut_programic::<T>` (in `snippet_body`)
returns the mutable reference re-typed as `T` only on an exact
dynamic-type match, otherwise an absent result. -/
def cast_mut_programic : (T : ProgramicTy) → ProgramicObj → Option T.interp
| .variableT, .ofVariable v => some v
| .codeT, .ofCode c => some c
| .variableT, _ => none
| .codeT, _ => none

/-- Rendering a `dyn Field` trait object dispatches to the concrete kind's
`Display` impl (both in src/src/lib.rs). -/
def renderField : FieldObj → String
| .ofPlaceholder p => renderPlaceholder p
| .ofChoice c => renderChoice c

/-- View a `dyn Field` object as the `dyn InteractiveSegment` object over
the same node (`Field` is a subtrait of `InteractiveSegment`). -/
def FieldObj.toInteractive : FieldObj → InteractiveObj
| .ofPlaceholder p => .ofPlaceholder p
| .ofChoice c => .ofChoice c

/-- Modelled from the spec: `Tab` (in `snippet_body`) is an ordinal `num`
plus a shared handle to a `Field`; the `Rc<RefCell<dyn Field>>` handle is
modelled as the field object itself. -/
structure Tab where
  num : Nat
  field : FieldObj

/-- Modelled from the spec: `Snippet` (in `snippet_body`) is the aggregate
root: body sequence, tab list, evaluatable-node collection, reference
collection. -/
structure Snippet where
  body : List Segment
  tabs : List Tab
  program_filled_text : List ProgramicObj
  references : List Reference

/-- Modelled from the spec: `str::trim` — remove leading and trailing
whitespace from a string, here represented by its character list. -/
def trimChars (l : List Char) : List Char :=
  ((l.dropWhile Char.isWhitespace).reverse.dropWhile Char.isWhitespace).reverse

/-- Modelled from the spec: `Snippet::trim_empty_tabs` (in `snippet_body`):
for each Tab in `tabs`, render its Field, trim leading/trailing whitespace
from the result, and remove the Tab from `tabs` if the trimmed result is
empty; nothing else is touched. -/
def Snippet.trim_empty_tabs (s : Snippet) : Snippet :=
  { s with tabs := s.tabs.filter (fun t => !(trimChars (renderField t.field).data).isEmpty) }

/-- The spec's notion of "concatenation, in order, of the renderings of the
segments". -/
def concatRenders (segs : List Segment) : String :=
  (segs.map renderSegment).foldr (· ++ ·) ""

theorem renderSegs_eq (segs : List Segment) : renderSegs segs = concatRenders segs := by
  induction segs with
  | nil => rfl
  | cons seg rest ih => simp [renderSegs, concatRenders, ih]

theorem renderAlts_eq (i : Nat) (alts : List (List Segment)) :
    renderAlts i alts = ((alts.get? i).map renderSegs).getD "" := by
  induction alts generalizing i with
  | nil => cases i <;> rfl
  | cons alt rest ih =>
    cases i with
    | zero => rfl
    | succ n => simpa [renderAlts] using ih n

/-- C6: for every Placeholder(segs), rendering the Placeholder equals the
concatenation of the renderings of its child segments in order; an empty
child sequence renders the empty string, and Placeholder([Text("hello"),
Text("there!")]) renders "hellothere!". -/
theorem placeholder_render_spec :
    (∀ segs : List Segment, renderPlaceholder (.mk segs) = concatRenders segs)
    ∧ renderPlaceholder (.mk []) = ""
    ∧ renderPlaceholder (.mk [.Text "hello", .Text "there!"]) = "hellothere!" := by
  refine ⟨fun segs => ?_, rfl, rfl⟩
  simp [renderPlaceholder, renderSegs_eq]

/-- C5: for every Choice(i, alts), if i is in range, rendering equals the
concatenation, in order, of the renderings of the segments of alts[i];
otherwise rendering yields the empty string (out-of-range is silent, never
an error). -/
theorem choice_render_spec (i : Nat) (alts : List (List Segment)) :
    (∀ h : i < alts.length, renderChoice (.mk i alts) = concatRenders (alts.get ⟨i, h⟩))
    ∧ (alts.length ≤ i → renderChoice (.mk i alts) = "") := by
  constructor
  · intro h
    have hg : alts[i]? = some alts[i] := List.getElem?_eq_getElem h
    simp [renderChoice, renderAlts_eq, hg, renderSegs_eq]
  · intro h
    have hg : alts[i]? = none := List.getElem?_eq_none h
    simp [renderChoice, renderAlts_eq, hg]

/-- Witness for C5 at a concrete in-range and a concrete out-of-range
Choice. -/
theorem choice_render_spec_witness :
    renderChoice (.mk 0 [[.Text "hello"]]) = concatRenders [Segment.Text "hello"]
    ∧ renderChoice (.mk 5 [[.Text "hello"]]) = "" :=
  ⟨(choice_render_spec 0 [[.Text "hello"]]).1 (by decide),
   (choice_render_spec 5 [[.Text "hello"]]).2 (by decide)⟩

/-- C1: trim_empty_tabs removes from tabs exactly those Tabs whose Field
renders, after trimming leading and trailing whitespace, to the empty
string; every other Tab remains, and the relative order of the surviving
Tabs is preserved (the surviving list is a sublist of the original). -/
theorem trim_empty_tabs_spec (s : Snippet) :
    (∀ t : Tab, t ∈ s.trim_empty_tabs.tabs ↔
        t ∈ s.tabs ∧ (trimChars (renderField t.field).data).isEmpty = false)
    ∧ List.Sublist s.trim_empty_tabs.tabs s.tabs := by
  constructor
  · intro t
    simp [Snippet.trim_empty_tabs, List.mem_filter]
  · exact List.filter_sublist _

/-- Witness for C1: the scenario Tab `num 1, Placeholder([Text("   ")])`,
whose rendered Field trims to empty, is present before and absent after. -/
theorem trim_empty_tabs_spec_witness :
    Tab.mk 1 (.ofPlaceholder (.mk [.Text "   "]))
        ∈ (Snippet.mk [] [Tab.mk 1 (.ofPlaceholder (.mk [.Text "   "]))] [] []).tabs
    ∧ ¬ Tab.mk 1 (.ofPlaceholder (.mk [.Text "   "]))
        ∈ (Snippet.mk [] [Tab.mk 1 (.ofPlaceholder (.mk [.Text "   "]))] [] []).trim_empty_tabs.tabs := by
  refine ⟨List.mem_singleton.mpr rfl, fun hmem => ?_⟩
  have h := ((trim_empty_tabs_spec
      (Snippet.mk [] [Tab.mk 1 (.ofPlaceholder (.mk [.Text "   "]))] [] [])).1
      (Tab.mk 1 (.ofPlaceholder (.mk [.Text "   "])))).mp hmem
  have h2 := h.2
  rw [show (trimChars (renderField (Tab.mk 1 (.ofPlaceholder
      (.mk [.Text "   "]))).field).data).isEmpty = true from rfl] at h2
  exact Bool.true_eq_false.mp h2

/-- C2: trim_empty_tabs leaves the body sequence unchanged (and the other
collections too); in particular a Field node held both by a Tab and by a
Segment in body is still present in body after its Tab entry is removed. -/
theorem trim_empty_tabs_frame (s : Snippet) :
    s.trim_empty_tabs.body = s.body
    ∧ s.trim_empty_tabs.program_filled_text = s.program_filled_text
    ∧ s.trim_empty_tabs.references = s.references
    ∧ (∀ t : Tab, t ∈ s.tabs →
        Segment.Interactive t.field.toInteractive ∈ s.body →
        Segment.Interactive t.field.toInteractive ∈ s.trim_empty_tabs.body) := by
  refine ⟨rfl, rfl, rfl, ?_⟩
  intro t _ hb
  simpa [Snippet.trim_empty_tabs] using hb

/-- Witness for C2 at a concrete Snippet whose single Tab's Field also
appears as a Segment in body: the Segment is still in body after the Tab
is pruned. -/
theorem trim_empty_tabs_frame_witness :
    Segment.Interactive ((FieldObj.ofPlaceholder (.mk [.Text "   "])).toInteractive)
        ∈ (Snippet.mk [Segment.Interactive ((FieldObj.ofPlaceholder (.mk [.Text "   "])).toInteractive)]
            [Tab.mk 1 (.ofPlaceholder (.mk [.Text "   "]))] [] []).trim_empty_tabs.body :=
  (trim_empty_tabs_frame
      (Snippet.mk [Segment.Interactive ((FieldObj.ofPlaceholder (.mk [.Text "   "])).toInteractive)]
        [Tab.mk 1 (.ofPlaceholder (.mk [.Text "   "]))] [] [])).2.2.2
    (Tab.mk 1 (.ofPlaceholder (.mk [.Text "   "])))
    (List.mem_singleton.mpr rfl)
    (List.mem_singleton.mpr rfl)

/-- C3: trim_empty_tabs is idempotent on the tabs list: applying it twice
yields the same tabs list as applying it once. -/
theorem trim_empty_tabs_idempotent (s : Snippet) :
    s.trim_empty_tabs.trim_empty_tabs.tabs = s.trim_empty_tabs.tabs := by
  simp [Snippet.trim_empty_tabs, List.filter_filter]

/-- C4: each of the three cast helpers succeeds exactly when the trait
object's dynamic type is the target type, in which case it returns the
underlying node itself; otherwise it returns an absent result (never a
loud failure).  In particular casting a Placeholder instance to Choice is
absent while casting it to Placeholder returns the instance. -/
theorem cast_helpers_spec :
    (∀ (T : InteractiveTy) (o : InteractiveObj),
        (cast_interactive_segment T o).isSome = true ↔ o.tyOf = T)
    ∧ (∀ p, cast_interactive_segment .placeholderT (.ofPlaceholder p) = some p)
    ∧ (∀ c, cast_interactive_segment .choiceT (.ofChoice c) = some c)
    ∧ (∀ v, cast_interactive_segment .variableT (.ofVariable v) = some v)
    ∧ (∀ c, cast_interactive_segment .codeT (.ofCode c) = some c)
    ∧ (∀ p, cast_interactive_segment .choiceT (.ofPlaceholder p) = none)
    ∧ (∀ (T : FieldTy) (o : FieldObj), (cast_field T o).isSome = true ↔ o.tyOf = T)
    ∧ (∀ p, cast_field .placeholderT (.ofPlaceholder p) = some p)
    ∧ (∀ c, cast_field .choiceT (.ofChoice c) = some c)
    ∧ (∀ (T : ProgramicTy) (o : ProgramicObj),
        (cast_mut_programic T o).isSome = true ↔ o.tyOf = T)
    ∧ (∀ v, cast_mut_programic .variableT (.ofVariable v) = some v)
    ∧ (∀ c, cast_mut_programic .codeT (.ofCode c) = some c) := by
  refine ⟨?_, fun p => rfl, fun c => rfl, fun v => rfl, fun c => rfl, fun p => rfl,
    ?_, fun p => rfl, fun c => rfl, ?_, fun v => rfl, fun c => rfl⟩
  · intro T o
    cases T <;> cases o <;>
      simp [cast_interactive_segment, InteractiveObj.tyOf]
  · intro T o
    cases T <;> cases o <;> simp [cast_field, FieldObj.tyOf]
  · intro T o
    cases T <;> cases o <;> simp [cast_mut_programic, ProgramicObj.tyOf]

/-- Witness for C4: the scenario instance `Placeholder([Text("hello"),
Text("there!")])` from the test, cast to Choice (absent) and to
Placeholder (the instance itself). -/
theorem cast_helpers_spec_witness :
    cast_interactive_segment .choiceT
        (.ofPlaceholder (.mk [.Text "hello", .Text "there!"])) = none
    ∧ cast_interactive_segment .placeholderT
        (.ofPlaceholder (.mk [.Text "hello", .Text "there!"]))
      = some (.mk [.Text "hello", .Text "there!"]) :=
  ⟨cast_helpers_spec.2.2.2.2.2.1 (.mk [.Text "hello", .Text "there!"]),
   cast_helpers_spec.2.1 (.mk [.Text "hello", .Text "there!"])⟩

/-- C9: a Reference value equals `Segment::Reference(r2)` iff it equals
`r2` field-by-field, and it is never equal to a Text or Interactive
Segment. -/
theorem reference_eq_segment_spec :
    (∀ a b a2 b2 : String,
        Reference.eqSegment (.Text a b) (Segment.Reference (.Text a2 b2)) = true
          ↔ a = a2 ∧ b = b2)
    ∧ (∀ (r : Reference) (s : String), Reference.eqSegment r (Segment.Text s) = false)
    ∧ (∀ (r : Reference) (o : InteractiveObj),
        Reference.eqSegment r (Segment.Interactive o) = false) := by
  refine ⟨fun a b a2 b2 => ?_, fun r s => rfl, fun r o => rfl⟩
  simp [Reference.eqSegment]

/-- Witness for C9: the test's `Reference::Text("Greetings", "Hi")` equals
its own wrapping as a Segment. -/
theorem reference_eq_segment_spec_witness :
    Reference.eqSegment (.Text "Greetings" "Hi")
        (Segment.Reference (.Text "Greetings" "Hi")) = true :=
  (reference_eq_segment_spec.1 "Greetings" "Hi" "Greetings" "Hi").mpr ⟨rfl, rfl⟩

/-- C7: evaluate sets the cached value as follows — with a client callback
attached, the callback's return for the variable's name is stored on every
call, overwriting the prior value independent of the process environment;
otherwise the named environment variable is read and stored, with the
empty string stored when it is unset, never an error. -/
theorem variable_evaluate_spec (v : Variable) (env : String → VarResult) :
    (∀ f, v.get_from_client = some f →
        (v.evaluate env).value = f v.name
        ∧ (∀ env2, (v.evaluate env2).value = (v.evaluate env).value)
        ∧ (∀ env2, ((v.evaluate env).evaluate env2).value = f v.name))
    ∧ (v.get_from_client = none →
        (v.evaluate env).value = get_variable_value env v.name
        ∧ (env v.name = .notPresent → (v.evaluate env).value = "")
        ∧ (∀ s, env v.name = .ok s → (v.evaluate env).value = s)) := by
  constructor
  · intro f h
    refine ⟨?_, fun env2 => ?_, fun env2 => ?_⟩ <;> simp [Variable.evaluate, h]
  · intro h
    refine ⟨by simp [Variable.evaluate, h], fun he => ?_, fun s he => ?_⟩ <;>
      simp [Variable.evaluate, get_variable_value, h, he]

/-- Witness for C7, both branches: the scenario `Variable{name:"GREETING",
value:"", get_from_client: Some(|_| "hi")}` evaluates to value "hi" even
though the environment says otherwise; without a callback, an unset
environment variable stores the empty string. -/
theorem variable_evaluate_spec_witness :
    ((Variable.mk "GREETING" "" (some (fun _ => "hi"))).evaluate
        (fun _ => .ok "not hi")).value = "hi"
    ∧ ((Variable.mk "GREETING" "old" none).evaluate (fun _ => .notPresent)).value = "" :=
  ⟨((variable_evaluate_spec (Variable.mk "GREETING" "" (some (fun _ => "hi")))
      (fun _ => .ok "not hi")).1 (fun _ => "hi") rfl).1,
   ((variable_evaluate_spec (Variable.mk "GREETING" "old" none)
      (fun _ => .notPresent)).2 rfl).2.1 rfl⟩

/-- C10: with no client callback, evaluate always stores the result of the
environment lookup and cannot fail: both error cases of `std::env::var`
(variable unset, or set to a non-Unicode value) store the empty string. -/
theorem variable_evaluate_env_spec (v : Variable) (h : v.get_from_client = none)
    (env : String → VarResult) :
    (v.evaluate env).value = get_variable_value env v.name
    ∧ (env v.name = .notPresent → (v.evaluate env).value = "")
    ∧ (env v.name = .notUnicode → (v.evaluate env).value = "")
    ∧ (∀ s, env v.name = .ok s → (v.evaluate env).value = s) := by
  refine ⟨by simp [Variable.evaluate, h], fun he => ?_, fun he => ?_, fun s he => ?_⟩ <;>
    simp [Variable.evaluate, get_variable_value, h, he]

/-- Witness for C10: an unset and a non-Unicode environment value both
store the empty string. -/
theorem variable_evaluate_env_spec_witness :
    ((Variable.mk "GREETING" "old" none).evaluate (fun _ => .notPresent)).value = ""
    ∧ ((Variable.mk "GREETING" "old" none).evaluate (fun _ => .notUnicode)).value = "" :=
  ⟨(variable_evaluate_env_spec (Variable.mk "GREETING" "old" none) rfl
      (fun _ => .notPresent)).2.1 rfl,
   (variable_evaluate_env_spec (Variable.mk "GREETING" "old" none) rfl
      (fun _ => .notUnicode)).2.2.1 rfl⟩

/-- C8: Code.evaluate runs the command through the subprocess runner and
stores the captured output as the new cached value; a failed run is
unconditionally fatal to the call (the `.unwrap()` panic, modelled as an
absent result rather than a recoverable error value). -/
theorem code_evaluate_spec (run : String → Option (Int × String × String)) (c : Code) :
    (∀ k out err, run c.code_to_run = some (k, out, err) →
        Code.evaluate run c = some (Code.mk c.code_to_run out))
    ∧ (run c.code_to_run = none → Code.evaluate run c = none) := by
  refine ⟨fun k out err h => ?_, fun h => ?_⟩ <;> simp [Code.evaluate, h]

/-- Witness for C8: a successful run stores the captured output; a failed
run aborts the call. -/
theorem code_evaluate_spec_witness :
    Code.evaluate (fun _ => some (0, "yes\n", "")) (Code.mk "greet=hi echo yes" "")
        = some (Code.mk "greet=hi echo yes" "yes\n")
    ∧ Code.evaluate (fun _ => none) (Code.mk "bad command" "stale") = none :=
  ⟨(code_evaluate_spec (fun _ => some (0, "yes\n", "")) (Code.mk "greet=hi echo yes" "")).1
      0 "yes\n" "" rfl,
   (code_evaluate_spec (fun _ => none) (Code.mk "bad command" "stale")).2 rfl⟩

end SnippetSegmentTypes
